import Mathlib

/-!
# Verification of the RAG chat assistant's ingestion-and-retrieval pipeline

A shallow embedding of the pipeline logic of the `rag-chat-assistant`
repository (`src/app.py`, `src/app_enhanced.py`, `src/create_database_simple.py`,
`src/document_manager.py`), together with theorems settling the spec's claims
about it.

Conventions of the embedding:
* relevance scores (Python floats in `[0,1]`) are modelled as rationals `ℚ`;
* the external capabilities (Chroma similarity search, the OpenAI embedder and
  chat completion) are parameters of the embedded functions: a query's result
  list is an input, the embedder is a `String → Option` function, the chat
  completion is a `String → Except String String` function;
* Python's catch-all `try/except` blocks become total functions returning the
  tuple the `except` branch returns.
-/

set_option autoImplicit false

namespace RagApp

/-- Metadata attached to a langchain `Document`, as used by the repository:
`source`, `upload_id`, `file_type`, `start_index`.  Each key may be absent,
hence the `Option`s (`doc.metadata.get(key, default)` in Python). -/
structure Metadata where
  source : Option String
  upload_id : Option String
  file_type : Option String
  start_index : Option Nat
deriving Repr, DecidableEq

/-- A langchain `Document`: `page_content` plus `metadata`. -/
structure Doc where
  page_content : String
  metadata : Metadata
deriving Repr, DecidableEq

/-- One element of the list returned by
`db.similarity_search_with_relevance_scores(question, k=3)`:
a `(document, relevance score)` pair. -/
abbrev QueryResult := Doc × ℚ

/-- The no-match message returned by `query_database` in `src/app.py` line 230
(identical in `src/app_enhanced.py` line 138). -/
def NO_MATCH_MSG : String :=
  "Unable to find matching results. Please try rephrasing your question or upload more documents."

/-- The relevance gate of `query_database` (`src/app.py` line 229):
`len(results) == 0 or results[0][1] < 0.7`.  Python's short-circuiting `or`
protects the `results[0]` access, which the `match` mirrors. -/
def gateFails (results : List QueryResult) : Bool :=
  match results with
  | [] => true
  | r :: _ => decide (r.2 < (7 : ℚ) / 10)

/-- `context_text` assembly (`src/app.py` line 233):
`"\n\n---\n\n".join([doc.page_content for doc, _score in results])`. -/
def contextText (results : List QueryResult) : String :=
  String.intercalate "\n\n---\n\n" (results.map (fun r => r.1.page_content))

/-- `sources` assembly (`src/app.py` line 244):
`[doc.metadata.get("source", "Unknown") for doc, _score in results]`. -/
def sourcesOf (results : List QueryResult) : List String :=
  results.map (fun r => r.1.metadata.source.getD "Unknown")

/-- `PROMPT_TEMPLATE` of `src/app.py` lines 33-41 instantiated at
`{context}` and `{question}` (`prompt_template.format(context=..., question=...)`,
line 237).  The literal text around the two slots is copied from the source,
newlines of the Python triple-quoted string included. -/
def formatPrompt (context question : String) : String :=
  "\nAnswer the question based only on the following context:\n\n"
    ++ context
    ++ "\n\n---\n\nAnswer the question based on the above context: "
    ++ question
    ++ "\n"

/-- The second component of `query_database`'s returned pair: in the Python it
is a list of source strings on success and a plain message string on the two
failure paths. -/
inductive MsgOrSources where
  | sources (l : List String)
  | message (s : String)
deriving Repr, DecidableEq

/-- `query_database(question, db)` of `src/app.py` lines 223-248.  The Chroma
similarity search result is the parameter `results`; the `ChatOpenAI` model is
the parameter `complete`, which either returns the completion text or raises
(its exception text is the `Except.error` payload, caught by the function's
catch-all `except` which returns `(None, f"Error processing query: {e}")`).

The first component of the returned pair is the Python pair
`(response_text | None, sources | message)`; the second component is the
instrumentation trace of prompts passed to `model.invoke`, recorded so that
the number of completion-capability invocations is part of the model. -/
def query_database (question : String) (results : List QueryResult)
    (complete : String → Except String String) :
    (Option String × MsgOrSources) × List String :=
  if gateFails results then
    ((none, .message NO_MATCH_MSG), [])
  else
    let prompt := formatPrompt (contextText results) question
    match complete prompt with
    | .ok response_text => ((some response_text, .sources (sourcesOf results)), [prompt])
    | .error e => ((none, .message ("Error processing query: " ++ e)), [prompt])

/-! ## The Chunker

The repository delegates splitting to
`RecursiveCharacterTextSplitter(chunk_size=300, chunk_overlap=100,
length_function=len, add_start_index=True)` (`src/create_database_simple.py`
lines 36-43, `src/app.py` lines 122-129, `src/app_enhanced.py` lines 73-79).
The splitter itself lives in the langchain dependency, outside the
repository, so it is modelled from the spec (§4.1 and §8). -/

/-- Modelled from the spec: the recursion producing chunk start offsets for a
unit of length `L` under `chunk_size = c`, `overlap = o`.  Chunks start at
`0, c - o, 2 * (c - o), …`; each consumes `c` characters (fewer for the final
chunk) and the recursion stops with the first chunk that reaches the end of
the unit.  `fuel` bounds the recursion; `chunkStarts` supplies `fuel = L`,
which suffices whenever `o < c`. -/
def chunkStartsGo (c o L : Nat) : Nat → Nat → List Nat
  | 0, start => [start]
  | fuel + 1, start =>
    if L ≤ start + c then [start]
    else start :: chunkStartsGo c o L fuel (start + (c - o))

/-- Modelled from the spec: the chunk start offsets for a unit of length `L`;
an empty unit produces zero chunks, not an error (§4.1). -/
def chunkStarts (c o L : Nat) : List Nat :=
  if L = 0 then [] else chunkStartsGo c o L L 0

/-- A produced chunk: its character content and the `start_index` recorded in
its metadata by `add_start_index=True`. -/
structure SpecChunk where
  text : List Char
  start_offset : Nat
deriving Repr, DecidableEq

/-- Modelled from the spec: `split_text` (`src/create_database_simple.py`
line 36) restricted to one raw unit, given as its character sequence: one
chunk per start offset, taking `c` characters from that offset. -/
def split_text (c o : Nat) (unit : List Char) : List SpecChunk :=
  (chunkStarts c o unit.length).map (fun st => ⟨(unit.drop st).take c, st⟩)

/-! ## The Chroma index: incremental add, batch ingestion, stats -/

/-- An embedding vector, as returned by the `OpenAIEmbeddings` capability. -/
abbrev Embedding := List ℚ

/-- The persisted Chroma storage: whether the `chroma` directory exists
(`os.path.exists(CHROMA_PATH)`) and the stored entries, each an embedding
paired with its document. -/
structure ChromaState where
  present : Bool
  entries : List (Embedding × Doc)
deriving Repr, DecidableEq

/-- The batch embedding performed inside `db.add_documents` /
`Chroma.from_documents`: embed every chunk's text, failing as a whole — the
library raises before touching storage — when the embedder fails on any text.
The embedder itself is an external capability (`OpenAIEmbeddings`); its
per-call behaviour is the parameter `embed`. -/
def embedBatch (embed : String → Option Embedding) :
    List Doc → Option (List (Embedding × Doc))
  | [] => some []
  | d :: rest =>
    match embed d.page_content, embedBatch embed rest with
    | some v, some tail => some ((v, d) :: tail)
    | _, _ => none

/-- `add_documents_to_database(chunks)` of `src/app.py` lines 173-192
(identical in `src/app_enhanced.py` lines 89-108): if the storage exists,
load it and append via `db.add_documents(chunks)`; otherwise create it via
`Chroma.from_documents(chunks, ...)`.  The catch-all `except` turns any
failure into the return value `False`, leaving the state as it was. -/
def add_documents_to_database (embed : String → Option Embedding)
    (st : ChromaState) (chunks : List Doc) : ChromaState × Bool :=
  match embedBatch embed chunks with
  | none => (st, false)
  | some newEntries =>
    if st.present then ({ present := true, entries := st.entries ++ newEntries }, true)
    else ({ present := true, entries := newEntries }, true)

/-- `process_uploaded_file` (`src/app.py` lines 93-171): loading, metadata
tagging and splitting run inside a catch-all `try/except`; on any exception
an empty chunk list is returned (after showing an error to the user).  The
loader stack is external, so one file's processing outcome is the
`Except`-valued argument. -/
def process_uploaded_file (loaded : Except String (List Doc)) : List Doc :=
  match loaded with
  | .ok chunks => chunks
  | .error _ => []

/-- The per-batch upload loop of `main` (`src/app.py` lines 296-316): for
each uploaded file in turn, process it and — when it yielded chunks — add
them to the database; on success add to the tally of `total_chunks` and
`processed_files`.  `load` gives each file's processing outcome.  The loop
never returns early. -/
def processFilesLoop {F : Type} (load : F → Except String (List Doc))
    (embed : String → Option Embedding) :
    List F → ChromaState → Nat → Nat → ChromaState × Nat × Nat
  | [], st, total, processed => (st, total, processed)
  | f :: rest, st, total, processed =>
    if (process_uploaded_file (load f)).isEmpty then
      processFilesLoop load embed rest st total processed
    else
      if (add_documents_to_database embed st (process_uploaded_file (load f))).2 then
        processFilesLoop load embed rest
          (add_documents_to_database embed st (process_uploaded_file (load f))).1
          (total + (process_uploaded_file (load f)).length) (processed + 1)
      else
        processFilesLoop load embed rest
          (add_documents_to_database embed st (process_uploaded_file (load f))).1
          total processed

/-- Whether one file contributes to the tally: it processed to a non-empty
chunk list and the embedding of its chunks succeeded.  This depends only on
the file itself — not on the database state, nor on the other files. -/
def fileSucceeds {F : Type} (load : F → Except String (List Doc))
    (embed : String → Option Embedding) (f : F) : Bool :=
  !(process_uploaded_file (load f)).isEmpty
    && (embedBatch embed (process_uploaded_file (load f))).isSome

/-- Python `sources.add(s)` on the distinct-sources set, modelled as a
duplicate-free list. -/
def addSource (sources : List String) (s : String) : List String :=
  if s ∈ sources then sources else sources ++ [s]

/-- One `file_types[ft] = file_types.get(ft, 0) + 1` update of the
per-file-type counts dict, modelled as an association list. -/
def bumpCount : List (String × Nat) → String → List (String × Nat)
  | [], k => [(k, 1)]
  | (q, n) :: rest, k =>
    if q = k then (q, n + 1) :: rest else (q, n) :: bumpCount rest k

/-- The aggregation loop of `get_database_info` (`src/app.py` lines 208-212):
an entry whose metadata has a `source` key adds that source to the
distinct-sources set and bumps the count of its `file_type` (`'unknown'`
when that key is absent); an entry without a `source` key is skipped
entirely. -/
def db_info_loop : List Metadata → List String → List (String × Nat) →
    List String × List (String × Nat)
  | [], sources, fts => (sources, fts)
  | m :: rest, sources, fts =>
    match m.source with
    | some s =>
        db_info_loop rest (addSource sources s) (bumpCount fts (m.file_type.getD "unknown"))
    | none => db_info_loop rest sources fts

/-- The dictionary returned by `get_database_info` in `src/app.py`. -/
structure DBInfo where
  count : Nat
  sources : List String
  file_types : List (String × Nat)
deriving Repr, DecidableEq

/-- `get_database_info()` of `src/app.py` lines 194-221, applied to the
parallel arrays `ids` and `metadatas` returned by `db.get()`:
`count = len(ids)`; sources and per-file-type counts from the loop over
`metadatas`. -/
def get_database_info (ids : List String) (metadatas : List Metadata) : DBInfo :=
  let p := db_info_loop metadatas [] []
  ⟨ids.length, p.1, p.2⟩

/-- Total of the per-file-type counts. -/
def countsSum (fts : List (String × Nat)) : Nat := (fts.map Prod.snd).sum

/-! ## Theorems about the Chunker -/

/-- `chunkStartsGo` always emits its current start offset first. -/
theorem chunkStartsGo_head (c o L : Nat) : ∀ (fuel start : Nat),
    (chunkStartsGo c o L fuel start).head? = some start := by
  intro fuel start
  cases fuel with
  | zero => rfl
  | succ n =>
    rw [chunkStartsGo]
    split <;> rfl

/-- Length of the offset list at the repository's configuration
`chunk_size = 300`, `overlap = 100` (stride `200`), for sufficient fuel. -/
theorem chunkStartsGo_length (L : Nat) : ∀ (fuel start : Nat),
    L ≤ start + 300 + fuel * 200 →
    (chunkStartsGo 300 100 L fuel start).length = (L - (start + 300) + 199) / 200 + 1 := by
  intro fuel
  induction fuel with
  | zero =>
    intro start h
    simp only [chunkStartsGo, List.length_singleton]
    omega
  | succ n ih =>
    intro start h
    rw [chunkStartsGo]
    by_cases hle : L ≤ start + 300
    · rw [if_pos hle]
      simp only [List.length_singleton]
      omega
    · rw [if_neg hle]
      simp only [List.length_cons]
      have h200 : start + (300 - 100) = start + 200 := rfl
      rw [h200, ih (start + 200) (by omega)]
      omega

/-- The spec's worked scenario (§8): a 1000-character unit with
`chunk_size = 300`, `overlap = 100` yields offsets `0, 200, 400, 600, 800`. -/
theorem chunkStarts_spec_scenario : chunkStarts 300 100 1000 = [0, 200, 400, 600, 800] := by
  decide

/-- C3: with `chunk_size = 300` and `overlap = 100`, a unit of length `L`
splits into `⌈(L - 100) / 200⌉` chunks when `L > 300` (written
`(L - 100 + 199) / 200` over `Nat`), into exactly one chunk when
`0 < L ≤ 300`, and into zero chunks — without error — when `L = 0`. -/
theorem split_text_count (unit : List Char) :
    (split_text 300 100 unit).length
      = if 300 < unit.length then (unit.length - 100 + 199) / 200
        else if unit.length = 0 then 0 else 1 := by
  rw [split_text, List.length_map, chunkStarts]
  by_cases h0 : unit.length = 0
  · simp [h0]
  · rw [if_neg h0, chunkStartsGo_length unit.length unit.length 0 (by omega)]
    split_ifs <;> omega

/-- Consecutive start offsets differ by exactly the stride `c - o`. -/
theorem chunkStartsGo_chain (c o L : Nat) : ∀ (fuel start : Nat),
    (chunkStartsGo c o L fuel start).Chain' (fun a b => b = a + (c - o)) := by
  intro fuel
  induction fuel with
  | zero => intro start; simp [chunkStartsGo]
  | succ n ih =>
    intro start
    rw [chunkStartsGo]
    by_cases hle : L ≤ start + c
    · rw [if_pos hle]; simp
    · rw [if_neg hle, List.chain'_cons']
      refine ⟨?_, ih _⟩
      intro b hb
      rw [chunkStartsGo_head] at hb
      simp only [Option.mem_def, Option.some.injEq] at hb
      omega

/-- Every emitted offset stays strictly inside the unit, provided the current
start does and `o < c`. -/
theorem chunkStartsGo_lt (c o L : Nat) (hco : o < c) : ∀ (fuel start : Nat),
    start < L → ∀ x ∈ chunkStartsGo c o L fuel start, x < L := by
  intro fuel
  induction fuel with
  | zero =>
    intro start hs x hx
    simp only [chunkStartsGo, List.mem_singleton] at hx
    omega
  | succ n ih =>
    intro start hs x hx
    rw [chunkStartsGo] at hx
    by_cases hle : L ≤ start + c
    · rw [if_pos hle] at hx
      simp only [List.mem_singleton] at hx
      omega
    · rw [if_neg hle] at hx
      rcases List.mem_cons.mp hx with h | h
      · omega
      · exact ih (start + (c - o)) (by omega) x h

/-- C6: for `o < c`, the chunk start offsets of one unit are strictly
increasing, consecutive offsets advance by at least `c - o` (in this model by
exactly `c - o`), and no offset exceeds the unit's length. -/
theorem split_text_offsets (c o : Nat) (hco : o < c) (unit : List Char) :
    ((split_text c o unit).map SpecChunk.start_offset).Chain'
        (fun a b => a + (c - o) ≤ b ∧ a < b)
    ∧ ∀ x ∈ (split_text c o unit).map SpecChunk.start_offset, x ≤ unit.length := by
  have hmap : (split_text c o unit).map SpecChunk.start_offset
      = chunkStarts c o unit.length := by
    rw [split_text, List.map_map]
    exact List.map_id' _
  rw [hmap, chunkStarts]
  by_cases h0 : unit.length = 0
  · rw [if_pos h0]
    exact ⟨List.chain'_nil, by intro x hx; simp at hx⟩
  · rw [if_neg h0]
    constructor
    · refine (chunkStartsGo_chain c o unit.length unit.length 0).imp ?_
      intro a b hab
      omega
    · intro x hx
      exact le_of_lt (chunkStartsGo_lt c o unit.length hco unit.length 0 (by omega) x hx)

/-- Witness for `split_text_offsets` at the repository configuration and a
1000-character unit. -/
theorem split_text_offsets_witness :
    (100 : Nat) < 300
    ∧ ∀ x ∈ (split_text 300 100 (List.replicate 1000 'a')).map SpecChunk.start_offset,
        x ≤ (List.replicate 1000 'a').length :=
  ⟨by decide, (split_text_offsets 300 100 (by decide) (List.replicate 1000 'a')).2⟩

/-! ## Theorems about the query path -/

/-- The catch-all error message of `query_database` never coincides with the
no-match message: the two failure texts are distinguishable. -/
theorem error_message_ne_no_match (s : String) :
    "Error processing query: " ++ s ≠ NO_MATCH_MSG := by
  intro h
  have h2 := congrArg String.data h
  rw [String.data_append] at h2
  simp [NO_MATCH_MSG] at h2

/-- C1: `query_database` returns the no-match outcome exactly when the Chroma
result sequence is empty or the first (highest-relevance) result's score is
strictly below `0.7`; only the head of the result list is inspected by the
gate, and an empty result list (a query against an index with zero entries)
yields the no-match message, not a failure. -/
theorem query_database_no_match_iff (question : String) (results : List QueryResult)
    (complete : String → Except String String) :
    (query_database question results complete).1 = (none, .message NO_MATCH_MSG)
      ↔ (results = [] ∨ ∃ r rest, results = r :: rest ∧ r.2 < 7 / 10) := by
  constructor
  · intro h
    cases hres : results with
    | nil => exact Or.inl rfl
    | cons r rest =>
      subst hres
      by_cases hlt : r.2 < 7 / 10
      · exact Or.inr ⟨r, rest, rfl, hlt⟩
      · exfalso
        have hg : gateFails (r :: rest) = false := by
          simp [gateFails, hlt]
        rw [query_database, hg] at h
        simp only [Bool.false_eq_true, if_false] at h
        cases hc : complete (formatPrompt (contextText (r :: rest)) question) with
        | ok resp => rw [hc] at h; simp at h
        | error e =>
          rw [hc] at h
          simp only [Prod.mk.injEq, MsgOrSources.message.injEq] at h
          exact error_message_ne_no_match e h.2
  · intro h
    have hg : gateFails results = true := by
      rcases h with h | ⟨r, rest, hres, hlt⟩
      · subst h; rfl
      · subst hres; simp [gateFails, hlt]
    rw [query_database, hg]
    simp

/-- C10: `query_database` is total (the Python body is wrapped in a catch-all
`try/except`) and every outcome has one of exactly two shapes: the pair of a
present answer and a sources list, or the pair of `None` and a message string.
The relevance-gate outcome and an internal error are returned in the same
`(None, message)` shape. -/
theorem query_database_total_shape (question : String) (results : List QueryResult)
    (complete : String → Except String String) :
    (∃ a srcs, (query_database question results complete).1 = (some a, .sources srcs))
      ∨ (∃ msg, (query_database question results complete).1 = (none, .message msg)) := by
  rw [query_database]
  cases hg : gateFails results with
  | true => exact Or.inr ⟨NO_MATCH_MSG, rfl⟩
  | false =>
    simp only [Bool.false_eq_true, if_false]
    cases hc : complete (formatPrompt (contextText results) question) with
    | ok resp => exact Or.inl ⟨resp, sourcesOf results, rfl⟩
    | error e => exact Or.inr ⟨"Error processing query: " ++ e, rfl⟩

/-- C2: on a result sequence that passes the gate and a successful completion,
the output of `query_database` is the completion text paired with the sources
list obtained by mapping each result to its chunk's `source` metadata
(`"Unknown"` when absent) — parallel to the result sequence, duplicates
preserved — and the single prompt sent to the model carries the context built
by joining the chunk texts, in result order, with the fixed `"\n\n---\n\n"`
separator.  The sources list has the same length as the result sequence. -/
theorem query_database_success_assembly (question : String) (results : List QueryResult)
    (complete : String → Except String String) (answer : String)
    (hgate : gateFails results = false)
    (hok : complete (formatPrompt (contextText results) question) = .ok answer) :
    (query_database question results complete)
      = ((some answer, .sources (results.map (fun r => r.1.metadata.source.getD "Unknown"))),
         [formatPrompt
            (String.intercalate "\n\n---\n\n" (results.map (fun r => r.1.page_content)))
            question])
    ∧ (results.map (fun r => r.1.metadata.source.getD "Unknown")).length = results.length := by
  constructor
  · rw [query_database, hgate]
    simp only [Bool.false_eq_true, if_false, hok]
    rfl
  · exact results.length_map _

/-- Witness for `query_database_success_assembly`: two chunks from the same
source plus one with no source metadata; the sources list keeps the duplicate
and substitutes `"Unknown"`. -/
theorem query_database_success_assembly_witness :
    (query_database "q"
        [(⟨"alpha", ⟨some "a.md", none, none, none⟩⟩, 0.95),
         (⟨"beta", ⟨some "a.md", none, none, none⟩⟩, 0.9),
         (⟨"gamma", ⟨none, none, none, none⟩⟩, 0.8)]
        (fun _ => .ok "ans"))
      = ((some "ans", .sources ["a.md", "a.md", "Unknown"]),
         [formatPrompt
            (String.intercalate "\n\n---\n\n" ["alpha", "beta", "gamma"])
            "q"]) := by
  have h := query_database_success_assembly "q"
    [(⟨"alpha", ⟨some "a.md", none, none, none⟩⟩, 0.95),
     (⟨"beta", ⟨some "a.md", none, none, none⟩⟩, 0.9),
     (⟨"gamma", ⟨none, none, none, none⟩⟩, 0.8)]
    (fun _ => .ok "ans") "ans"
    (by simp only [gateFails, decide_eq_false_iff_not]; norm_num)
    rfl
  exact h.1

/-- C8: when the gate passes, `query_database` invokes the completion
capability exactly once (the trace of prompts has length one), and the single
prompt is the fixed template: the instruction to answer only from the supplied
context, then the context, then the question repeated after the context. -/
theorem query_database_prompt_once (question : String) (results : List QueryResult)
    (complete : String → Except String String)
    (hgate : gateFails results = false) :
    (query_database question results complete).2
      = ["\nAnswer the question based only on the following context:\n\n"
          ++ contextText results
          ++ "\n\n---\n\nAnswer the question based on the above context: "
          ++ question ++ "\n"]
    ∧ (query_database question results complete).2.length = 1 := by
  have hmain : (query_database question results complete).2
      = [formatPrompt (contextText results) question] := by
    rw [query_database, hgate]
    simp only [Bool.false_eq_true, if_false]
    cases complete (formatPrompt (contextText results) question) <;> rfl
  refine ⟨?_, by rw [hmain]; rfl⟩
  rw [hmain]; rfl

/-- Witness for `query_database_prompt_once` at a one-result list whose score
passes the gate. -/
theorem query_database_prompt_once_witness :
    (query_database "what is alpha"
        [(⟨"alpha text", ⟨some "a.md", none, none, none⟩⟩, 0.8)]
        (fun _ => .error "quota")).2.length = 1 := by
  have h := query_database_prompt_once "what is alpha"
    [(⟨"alpha text", ⟨some "a.md", none, none, none⟩⟩, 0.8)]
    (fun _ => .error "quota")
    (by simp only [gateFails, decide_eq_false_iff_not]; norm_num)
  exact h.2

/-! ## Theorems about incremental add and its failure semantics -/

/-- C4: when the storage is already present, `add_documents_to_database`
appends the newly embedded entries to the existing entries — it never
rebuilds — and a second add against the resulting storage appends again, so
every previously added entry stays in place across repeated calls. -/
theorem add_documents_incremental (embed : String → Option Embedding)
    (st : ChromaState) (chunks more : List Doc)
    (new new' : List (Embedding × Doc))
    (hpresent : st.present = true)
    (h1 : embedBatch embed chunks = some new)
    (h2 : embedBatch embed more = some new') :
    add_documents_to_database embed st chunks = (⟨true, st.entries ++ new⟩, true)
    ∧ (add_documents_to_database embed
          (add_documents_to_database embed st chunks).1 more).1
        = ⟨true, st.entries ++ new ++ new'⟩ := by
  have hstep : add_documents_to_database embed st chunks
      = (⟨true, st.entries ++ new⟩, true) := by
    unfold add_documents_to_database
    rw [h1, hpresent]
    rfl
  refine ⟨hstep, ?_⟩
  rw [hstep]
  unfold add_documents_to_database
  rw [h2]
  rfl

/-- Witness for `add_documents_incremental`: an existing one-entry index,
then two successive adds of one chunk each. -/
theorem add_documents_incremental_witness :
    (add_documents_to_database (fun _ => some [(1 : ℚ)])
        (add_documents_to_database (fun _ => some [(1 : ℚ)])
          ⟨true, [([(1 : ℚ)], ⟨"old", ⟨some "o.md", none, none, none⟩⟩)]⟩
          [⟨"c1", ⟨some "a.md", none, none, none⟩⟩]).1
        [⟨"c2", ⟨some "b.md", none, none, none⟩⟩]).1
      = ⟨true, [([(1 : ℚ)], ⟨"old", ⟨some "o.md", none, none, none⟩⟩),
                ([(1 : ℚ)], ⟨"c1", ⟨some "a.md", none, none, none⟩⟩),
                ([(1 : ℚ)], ⟨"c2", ⟨some "b.md", none, none, none⟩⟩)]⟩ :=
  (add_documents_incremental (fun _ => some [(1 : ℚ)])
    ⟨true, [([(1 : ℚ)], ⟨"old", ⟨some "o.md", none, none, none⟩⟩)]⟩
    [⟨"c1", ⟨some "a.md", none, none, none⟩⟩]
    [⟨"c2", ⟨some "b.md", none, none, none⟩⟩]
    [([(1 : ℚ)], ⟨"c1", ⟨some "a.md", none, none, none⟩⟩)]
    [([(1 : ℚ)], ⟨"c2", ⟨some "b.md", none, none, none⟩⟩)]
    rfl rfl rfl).2

/-- If the embedder fails on some chunk of the batch, the whole batch
embedding fails. -/
theorem embedBatch_eq_none (embed : String → Option Embedding) (chunks : List Doc)
    (h : ∃ d ∈ chunks, embed d.page_content = none) :
    embedBatch embed chunks = none := by
  induction chunks with
  | nil => simp at h
  | cons d rest ih =>
    rw [embedBatch]
    rcases h with ⟨x, hx, hnone⟩
    rcases List.mem_cons.mp hx with hhd | htl
    · subst hhd
      rw [hnone]
    · rw [ih ⟨x, htl, hnone⟩]
      cases embed d.page_content <;> rfl

/-- C5: when the embedder capability fails on any chunk of the call, the call
reports failure and the index state is exactly the state before the call —
the add is atomic at call granularity. -/
theorem add_documents_atomic (embed : String → Option Embedding)
    (st : ChromaState) (chunks : List Doc)
    (hfail : ∃ d ∈ chunks, embed d.page_content = none) :
    add_documents_to_database embed st chunks = (st, false) := by
  unfold add_documents_to_database
  rw [embedBatch_eq_none embed chunks hfail]

/-- Witness for `add_documents_atomic`: a wholly unavailable embedder leaves
a one-entry index untouched. -/
theorem add_documents_atomic_witness :
    (∃ d ∈ [(⟨"bad", ⟨some "b.md", none, none, none⟩⟩ : Doc)],
        (fun _ => (none : Option Embedding)) d.page_content = none)
    ∧ add_documents_to_database (fun _ => none)
        ⟨true, [([(1 : ℚ)], ⟨"old", ⟨some "o.md", none, none, none⟩⟩)]⟩
        [⟨"bad", ⟨some "b.md", none, none, none⟩⟩]
      = (⟨true, [([(1 : ℚ)], ⟨"old", ⟨some "o.md", none, none, none⟩⟩)]⟩, false) :=
  ⟨⟨⟨"bad", ⟨some "b.md", none, none, none⟩⟩, List.mem_singleton.mpr rfl, rfl⟩,
   add_documents_atomic (fun _ => none)
     ⟨true, [([(1 : ℚ)], ⟨"old", ⟨some "o.md", none, none, none⟩⟩)]⟩
     [⟨"bad", ⟨some "b.md", none, none, none⟩⟩]
     ⟨⟨"bad", ⟨some "b.md", none, none, none⟩⟩, List.mem_singleton.mpr rfl, rfl⟩⟩

/-- The success flag of an add depends only on whether the batch embedding
succeeded, not on the prior state. -/
theorem add_documents_snd (embed : String → Option Embedding)
    (st : ChromaState) (chunks : List Doc) :
    (add_documents_to_database embed st chunks).2
      = (embedBatch embed chunks).isSome := by
  unfold add_documents_to_database
  cases embedBatch embed chunks with
  | none => rfl
  | some l =>
    dsimp only
    by_cases hp : st.present = true
    · rw [if_pos hp]
      rfl
    · rw [if_neg hp]
      rfl

/-- C7: the upload loop works through every file of the batch — a file that
fails to process (or whose add fails) contributes nothing but does not stop
the loop — and the final tally `(total_chunks, processed_files)` counts each
file's own success independently of the other files: `processed_files` is the
number of succeeding files and `total_chunks` the sum of their chunk counts. -/
theorem processFilesLoop_tally {F : Type} (load : F → Except String (List Doc))
    (embed : String → Option Embedding) (files : List F) :
    ∀ (st : ChromaState) (total processed : Nat),
    (processFilesLoop load embed files st total processed).2
      = (total + (((files.filter (fileSucceeds load embed)).map
            (fun f => (process_uploaded_file (load f)).length)).sum),
         processed + (files.filter (fileSucceeds load embed)).length) := by
  induction files with
  | nil =>
    intro st total processed
    simp [processFilesLoop]
  | cons f rest ih =>
    intro st total processed
    rw [processFilesLoop]
    by_cases hemp : (process_uploaded_file (load f)).isEmpty = true
    · have hf : fileSucceeds load embed f = false := by
        simp [fileSucceeds, hemp]
      rw [if_pos hemp, ih, List.filter_cons, hf]
      simp
    · rw [if_neg hemp]
      by_cases hsome : (embedBatch embed (process_uploaded_file (load f))).isSome = true
      · have hsucc : (add_documents_to_database embed st (process_uploaded_file (load f))).2
            = true := by rw [add_documents_snd, hsome]
        have hf : fileSucceeds load embed f = true := by
          simp [fileSucceeds, hemp, hsome]
        rw [if_pos hsucc, ih, List.filter_cons, hf]
        simp only [if_true, List.map_cons, List.sum_cons, List.length_cons, Prod.mk.injEq]
        refine ⟨by omega, by omega⟩
      · have hfailflag : (add_documents_to_database embed st (process_uploaded_file (load f))).2
            ≠ true := by
          rw [add_documents_snd]
          exact hsome
        have hf : fileSucceeds load embed f = false := by
          simp only [fileSucceeds, Bool.and_eq_false_iff]
          right
          exact Bool.not_eq_true _ ▸ hsome
        rw [if_neg hfailflag, ih, List.filter_cons, hf]
        simp

/-! ## Theorems about the stats aggregation -/

/-- Bumping one key's count raises the total of the counts by one. -/
theorem countsSum_bumpCount (fts : List (String × Nat)) (k : String) :
    countsSum (bumpCount fts k) = countsSum fts + 1 := by
  induction fts with
  | nil => rfl
  | cons p rest ih =>
    obtain ⟨q, n⟩ := p
    rw [bumpCount]
    by_cases hq : q = k
    · rw [if_pos hq]
      simp only [countsSum, List.map_cons, List.sum_cons]
      omega
    · rw [if_neg hq]
      simp only [countsSum, List.map_cons, List.sum_cons] at ih ⊢
      omega

/-- The total of the per-file-type counts accumulated by the aggregation loop
is the number of entries whose metadata has a `source` key. -/
theorem db_info_loop_sum (ms : List Metadata) :
    ∀ (sources : List String) (fts : List (String × Nat)),
    countsSum (db_info_loop ms sources fts).2
      = countsSum fts + (ms.filter (fun m => m.source.isSome)).length := by
  induction ms with
  | nil =>
    intro s fts
    simp [db_info_loop]
  | cons m rest ih =>
    intro s fts
    cases hsrc : m.source with
    | none =>
      simp only [db_info_loop, hsrc]
      rw [ih, List.filter_cons_of_neg]
      simp [hsrc]
    | some v =>
      simp only [db_info_loop, hsrc]
      rw [ih, countsSum_bumpCount, List.filter_cons_of_pos]
      · simp only [List.length_cons]
        omega
      · simp [hsrc]

/-- Every source the aggregation loop reports comes from an entry whose
metadata has that `source` value (or was already in the accumulator). -/
theorem db_info_loop_sources (ms : List Metadata) :
    ∀ (sources : List String) (fts : List (String × Nat)),
    ∀ s ∈ (db_info_loop ms sources fts).1,
      s ∈ sources ∨ ∃ m ∈ ms, m.source = some s := by
  induction ms with
  | nil =>
    intro srcs fts s hs
    exact Or.inl (by simpa [db_info_loop] using hs)
  | cons m rest ih =>
    intro srcs fts s hs
    cases hsrc : m.source with
    | none =>
      simp only [db_info_loop, hsrc] at hs
      rcases ih _ _ s hs with h | ⟨x, hx, he⟩
      · exact Or.inl h
      · exact Or.inr ⟨x, List.mem_cons_of_mem _ hx, he⟩
    | some v =>
      simp only [db_info_loop, hsrc] at hs
      rcases ih _ _ s hs with h | ⟨x, hx, he⟩
      · rw [addSource] at h
        by_cases hv : v ∈ srcs
        · rw [if_pos hv] at h
          exact Or.inl h
        · rw [if_neg hv] at h
          rcases List.mem_append.mp h with h | h
          · exact Or.inl h
          · rw [List.mem_singleton] at h
            subst h
            exact Or.inr ⟨m, List.mem_cons_self m rest, hsrc⟩
      · exact Or.inr ⟨x, List.mem_cons_of_mem _ hx, he⟩

/-- A filtered list is no longer than the original. -/
theorem filter_length_le {α : Type} (p : α → Bool) (l : List α) :
    (l.filter p).length ≤ l.length := by
  induction l with
  | nil => simp
  | cons a rest ih =>
    rw [List.filter_cons]
    split
    · simp only [List.length_cons]
      omega
    · simp only [List.length_cons]
      omega

/-- A filtered list is strictly shorter when some element fails the test. -/
theorem filter_length_lt {α : Type} (p : α → Bool) (l : List α)
    (h : ∃ x ∈ l, p x = false) :
    (l.filter p).length < l.length := by
  induction l with
  | nil => simp at h
  | cons a rest ih =>
    rcases h with ⟨x, hx, hp⟩
    rcases List.mem_cons.mp hx with hhd | htl
    · subst hhd
      rw [List.filter_cons_of_neg (by simp [hp])]
      have := filter_length_le p rest
      simp only [List.length_cons]
      omega
    · rw [List.filter_cons]
      have := ih ⟨x, htl, hp⟩
      split <;> simp only [List.length_cons] <;> omega

/-- C9: `get_database_info` reports `count` as the total number of stored
ids; an entry without a `source` key contributes to neither the
distinct-sources set nor the per-file-type counts, so the total of
`counts_by_file_type` equals the number of entries carrying a `source` key —
at most `count` (ids and metadatas being the parallel arrays of one
`db.get()`), and strictly below `count` as soon as some entry lacks
`source`. -/
theorem get_database_info_counts (ids : List String) (metadatas : List Metadata)
    (hlen : metadatas.length = ids.length) :
    (get_database_info ids metadatas).count = ids.length
    ∧ countsSum (get_database_info ids metadatas).file_types
        = (metadatas.filter (fun m => m.source.isSome)).length
    ∧ (∀ s ∈ (get_database_info ids metadatas).sources, ∃ m ∈ metadatas, m.source = some s)
    ∧ countsSum (get_database_info ids metadatas).file_types
        ≤ (get_database_info ids metadatas).count
    ∧ ((∃ m ∈ metadatas, m.source = none) →
        countsSum (get_database_info ids metadatas).file_types
          < (get_database_info ids metadatas).count) := by
  have hsum : countsSum (get_database_info ids metadatas).file_types
      = (metadatas.filter (fun m => m.source.isSome)).length := by
    show countsSum (db_info_loop metadatas [] []).2 = _
    rw [db_info_loop_sum]
    simp [countsSum]
  refine ⟨rfl, hsum, ?_, ?_, ?_⟩
  · intro s hs
    rcases db_info_loop_sources metadatas [] [] s hs with h | h
    · simp at h
    · exact h
  · rw [hsum]
    show _ ≤ ids.length
    rw [← hlen]
    exact filter_length_le _ _
  · intro ⟨m, hm, hnone⟩
    rw [hsum]
    show _ < ids.length
    rw [← hlen]
    exact filter_length_lt _ _ ⟨m, hm, by simp [hnone]⟩

/-- Witness for `get_database_info_counts`: two entries, one of them without
a `source` key; the file-type total is one while the count is two. -/
theorem get_database_info_counts_witness :
    countsSum (get_database_info ["i1", "i2"]
        [⟨some "a.md", none, some "md", none⟩, ⟨none, none, none, none⟩]).file_types
      < (get_database_info ["i1", "i2"]
          [⟨some "a.md", none, some "md", none⟩, ⟨none, none, none, none⟩]).count :=
  (get_database_info_counts ["i1", "i2"]
      [⟨some "a.md", none, some "md", none⟩, ⟨none, none, none, none⟩]
      rfl).2.2.2.2
    ⟨⟨none, none, none, none⟩, by simp, rfl⟩

end RagApp
